import Mathlib

/-!
# Verification of the stagewise Claude-Code agent core

Shallow embedding of the agent-orchestration subsystem:
* `stream-parser.ts` (`parseStreamJson`): newline-delimited decoding with an
  accumulation buffer, abstracted over the line parser (`JSON.parse`);
* `prompt-builder.ts` (`buildPromptText`, `buildStreamJsonMessage`,
  `serializeDomContext`, `extractScreenshots`, `extractPluginSnippets`);
* `process-manager.ts` (`spawnClaudeCode`), modelled at the JavaScript level
  so that the dynamic behaviour of the call site can be stated;
* `ClaudeCodeAgent.ts` (`handleUserMessage`, `handleStreamEvent`, `abort`,
  `deleteChat`, `createAndActivateNewChat`), with the Karton store modelled
  as an explicit state record and JS objects as insertion-ordered
  association lists.

JavaScript strings are modelled as `String`/`List Char`; truthiness of a
string is "non-empty", of an optional value is "present"; a `!` non-null
assertion followed by a member access is modelled as an `Option`-valued
lookup whose `none` case is a thrown `TypeError` (`Option` result).
-/

/-! ## Stream decoder (`stream-parser.ts`, `parseStreamJson`)

The decoder keeps a string buffer, appends each incoming chunk, splits the
buffer on `'\n'`, keeps the last (incomplete) segment buffered, trims every
complete line, skips empty lines, and parses the rest with `JSON.parse`,
discarding lines that fail to parse.  After the channel closes, a non-empty
trimmed residual buffer is parsed the same way.  `JSON.parse` is abstracted
as a parameter `parse : List Char → Option E`. -/

/-- `buffer.split('\n')` followed by `lines.pop()`: the complete lines (all
segments but the last) and the retained buffer (the last segment). -/
def splitNL : List Char → List (List Char) × List Char
  | [] => ([], [])
  | c :: rest =>
    let r := splitNL rest
    if c = '\n' then ([] :: r.1, r.2)
    else
      match r.1 with
      | [] => ([], c :: r.2)
      | l :: ls => ((c :: l) :: ls, r.2)

/-- `line.trim()`: strip whitespace from both ends. -/
def trimChars (l : List Char) : List Char :=
  ((l.dropWhile Char.isWhitespace).reverse.dropWhile Char.isWhitespace).reverse

/-- Handling of one complete line: trim, skip when empty, otherwise attempt
`JSON.parse`; a parse failure yields nothing (the line is discarded). -/
def processLine {E : Type _} (parse : List Char → Option E) (l : List Char) :
    Option E :=
  let t := trimChars l
  if t.isEmpty then none else parse t

/-- The events produced by a list of complete lines, in order. -/
def processLines {E : Type _} (parse : List Char → Option E)
    (ls : List (List Char)) : List E :=
  ls.filterMap (processLine parse)

/-- One iteration of the `for await (const chunk of stdout)` loop: append the
chunk to the buffer, split off the complete lines, emit their events. -/
def feed {E : Type _} (parse : List Char → Option E)
    (s : List Char × List E) (chunk : List Char) : List Char × List E :=
  let sp := splitNL (s.1 ++ chunk)
  (sp.2, s.2 ++ processLines parse sp.1)

/-- The buffer and emitted events after the whole chunk sequence. -/
def feedAll {E : Type _} (parse : List Char → Option E)
    (chunks : List (List Char)) : List Char × List E :=
  chunks.foldl (feed parse) ([], [])

/-- `parseStreamJson` over a chunked character stream: run the read loop,
then parse the trimmed residual buffer (if non-empty) as one final record. -/
def parseStreamJsonC {E : Type _} (parse : List Char → Option E)
    (chunks : List (List Char)) : List E :=
  let s := feedAll parse chunks
  s.2 ++ (processLine parse s.1).toList

/-! ### Byte-level model

The read loop receives `Buffer` chunks and does `buffer += chunk.toString()`,
i.e. every chunk is UTF-8-decoded *independently*; a multi-byte sequence
split across a chunk boundary decodes to replacement characters. -/

/-- Is `b` a UTF-8 continuation byte (`0x80..0xBF`)? -/
def contByte (b : Nat) : Bool := 0x80 ≤ b && b < 0xC0

/-- Fuel-driven worker for `utf8DecodeReplace` (fuel bounds the number of
decoding steps; one byte at least is consumed per step). -/
def utf8Go : Nat → List Nat → List Char
  | 0, _ => []
  | _ + 1, [] => []
  | fuel + 1, b :: rest =>
    if b < 0x80 then Char.ofNat b :: utf8Go fuel rest
    else if b < 0xC2 then Char.ofNat 0xFFFD :: utf8Go fuel rest
    else if b < 0xE0 then
      match rest with
      | b2 :: rest2 =>
        if contByte b2 then
          Char.ofNat ((b - 0xC0) * 0x40 + (b2 - 0x80)) :: utf8Go fuel rest2
        else Char.ofNat 0xFFFD :: utf8Go fuel rest
      | [] => [Char.ofNat 0xFFFD]
    else if b < 0xF0 then
      match rest with
      | b2 :: b3 :: rest3 =>
        if contByte b2 && contByte b3 then
          Char.ofNat ((b - 0xE0) * 0x1000 + (b2 - 0x80) * 0x40 + (b3 - 0x80)) ::
            utf8Go fuel rest3
        else Char.ofNat 0xFFFD :: utf8Go fuel rest
      | _ => [Char.ofNat 0xFFFD]
    else
      match rest with
      | b2 :: b3 :: b4 :: rest4 =>
        if contByte b2 && contByte b3 && contByte b4 then
          Char.ofNat ((b - 0xF0) * 0x40000 + (b2 - 0x80) * 0x1000 +
            (b3 - 0x80) * 0x40 + (b4 - 0x80)) :: utf8Go fuel rest4
        else Char.ofNat 0xFFFD :: utf8Go fuel rest
      | _ => [Char.ofNat 0xFFFD]

/-- `Buffer.toString('utf8')`: UTF-8 decoding where invalid or incomplete
sequences become U+FFFD replacement characters (WHATWG-style; faithful on
well-formed sequences and on isolated lead or continuation bytes, which are
the shapes arising from chunk-boundary splits). -/
def utf8DecodeReplace (bs : List Nat) : List Char := utf8Go bs.length bs

/-- One read-loop iteration at the byte level: the chunk is decoded to text
on its own (`chunk.toString()`) and appended to the string buffer. -/
def feedBytes {E : Type _} (parse : List Char → Option E)
    (s : List Char × List E) (chunk : List Nat) : List Char × List E :=
  feed parse s (utf8DecodeReplace chunk)

/-- `parseStreamJson` applied to a byte-chunked stream. -/
def parseStreamJsonBytes {E : Type _} (parse : List Char → Option E)
    (chunks : List (List Nat)) : List E :=
  let s := chunks.foldl (feedBytes parse) ([], [])
  s.2 ++ (processLine parse s.1).toList

/-- `JSON.parse` restricted to simple JSON string literals (a double-quoted
string whose content has no quote, no backslash and no control character);
every other input is a parse failure.  This agrees with `JSON.parse` on the
concrete lines used below. -/
def jsonStringLite (l : List Char) : Option (List Char) :=
  match l with
  | [] => none
  | c :: rest =>
    if c = '"' ∧ rest ≠ [] ∧ rest.getLast? = some '"' then
      let mid := rest.dropLast
      if mid.all (fun ch => ch ≠ '"' && ch ≠ '\\' && 0x20 ≤ ch.toNat) then
        some mid
      else none
    else none

/-! ## Data model (`types.ts`, `@stagewise/karton-contract`)

JS records with string keys (`chats`, `pluginContentItems`,
`attributes`) are modelled as insertion-ordered association lists;
optional / possibly-`undefined` fields as `Option`. -/

/-- A message part (`{type, text?, data?, mimeType?}`). -/
structure MessagePart where
  type : String
  text : Option String
  data : Option String
  mimeType : Option String
deriving DecidableEq, Repr

/-- One selected-element descriptor of `browserData.selectedElements`. -/
structure SelectedElement where
  xpath : Option String
  textContent : Option String
  attributes : Option (List (String × String))
deriving DecidableEq, Repr

/-- `message.metadata.browserData`. -/
structure BrowserData where
  selectedElements : Option (List SelectedElement)
deriving DecidableEq, Repr

/-- One named content item contributed by a plugin. -/
structure PluginContentItem where
  text : String
deriving DecidableEq, Repr

/-- `message.metadata`: creation time plus the optional context sources. -/
structure MessageMetadata where
  createdAt : Nat
  browserData : Option BrowserData
  pluginContentItems :
    Option (List (String × List (String × PluginContentItem)))
deriving DecidableEq, Repr

/-- A chat message (`ChatMessage`). -/
structure ChatMessage where
  id : String
  role : String
  parts : List MessagePart
  metadata : MessageMetadata
deriving DecidableEq, Repr

/-- A chat (`Chat`): title, creation time, ordered messages. -/
structure Chat where
  title : String
  createdAt : Nat
  messages : List ChatMessage
deriving DecidableEq, Repr

/-- The Karton-synchronised session state (`initialState` shape). -/
structure KartonState where
  activeChatId : Option String
  chats : List (String × Chat)
  isWorking : Bool
deriving DecidableEq, Repr

/-- The agent instance: whether `this.karton` is non-null, the shared state,
and whether `this.currentProcess` holds a live handle. -/
structure AgentState where
  kartonInit : Bool
  karton : KartonState
  currentProcess : Bool
deriving DecidableEq, Repr

/-- A fragment of `event.message.content`. -/
structure ContentFrag where
  type : String
  text : Option String
deriving DecidableEq, Repr

/-- `event.message` of a decoded stream event. -/
structure EventMessage where
  id : String
  content : List ContentFrag
deriving DecidableEq, Repr

/-- A decoded stream event (`StreamEvent` in `types.ts`). -/
structure StreamEvent where
  type : String
  subtype : Option String
  message : Option EventMessage
  result : Option String
  session_id : Option String
  is_error : Option Bool
  duration_ms : Option Nat
deriving DecidableEq, Repr

/-! ## Prompt composer (`prompt-builder.ts`) -/

/-- The composed input bundle (`ClaudeCodeInput`). -/
structure ClaudeCodeInput where
  text : String
  domContext : Option String
  screenshots : Option (List String)
  pluginSnippets : Option (List String)
deriving DecidableEq, Repr

/-- One entry of the wire message's `content` array. -/
inductive WireContent where
  | text (text : String)
  | image (sourceType mediaType data : String)
deriving DecidableEq, Repr

/-- The `message` object of the wire input message. -/
structure WireMessage where
  role : String
  content : List WireContent
deriving DecidableEq, Repr

/-- The wire input message (`StreamJsonUserMessage`). -/
structure StreamJsonUserMessage where
  type : String
  message : WireMessage
deriving DecidableEq, Repr

/-- `Array.prototype.join(sep)`. -/
def joinWith (sep : String) : List String → String
  | [] => ""
  | [x] => x
  | x :: y :: xs => x ++ sep ++ joinWith sep (y :: xs)

/-- `buildPromptText`: push a labelled DOM-context block when `domContext` is
truthy (present and non-empty), a labelled plugin-context block (snippets
joined with newlines) when the snippet list is present and non-empty, then
the raw user text; join the pushed sections with a blank line. -/
def buildPromptTextS (input : ClaudeCodeInput) : String :=
  let parts : List String := []
  let parts := match input.domContext with
    | some d => if d ≠ "" then parts ++ ["[用户选中的DOM元素]\n" ++ d] else parts
    | none => parts
  let parts := match input.pluginSnippets with
    | some l => if l ≠ [] then parts ++ ["[项目上下文]\n" ++ joinWith "\n" l]
                else parts
    | none => parts
  let parts := parts ++ [input.text]
  joinWith "\n\n" parts

/-- `buildStreamJsonMessage`: one base64 `image/png` attachment per
screenshot, in order, then exactly one text attachment. -/
def buildStreamJsonMessageS (input : ClaudeCodeInput) : StreamJsonUserMessage :=
  let content : List WireContent :=
    (input.screenshots.getD []).map
      (fun s => WireContent.image "base64" "image/png" s)
  let content := content ++ [WireContent.text (buildPromptTextS input)]
  { type := "user", message := { role := "user", content := content } }

/-- `JSON.stringify` of a string-valued attribute record. -/
def jsonStringifyAttrs (attrs : List (String × String)) : String :=
  "\x7b" ++
    joinWith "," (attrs.map (fun kv => "\"" ++ kv.1 ++ "\":\"" ++ kv.2 ++ "\""))
    ++ "\x7d"

/-- `serializeDomContext`: `undefined` when there are no selected elements,
otherwise one block per element joined by blank lines. -/
def serializeDomContextS (bd : Option BrowserData) : Option String :=
  match bd with
  | none => none
  | some b =>
    match b.selectedElements with
    | none => none
    | some els =>
      if els = [] then none
      else
        some (joinWith "\n\n" ((els.enum).map (fun ie =>
          let parts := ["元素 " ++ toString (ie.1 + 1) ++ ":"]
          let parts := match ie.2.xpath with
            | some x => if x ≠ "" then parts ++ ["XPath: " ++ x] else parts
            | none => parts
          let parts := match ie.2.textContent with
            | some t => if t ≠ "" then parts ++ ["文本: " ++ t] else parts
            | none => parts
          let parts := match ie.2.attributes with
            | some a => parts ++ ["属性: " ++ jsonStringifyAttrs a]
            | none => parts
          joinWith "\n" parts)))

/-- `extractPluginSnippets`: flatten the two-level record into labelled
blocks `[pluginName/itemName]\ntext`, in enumeration order. -/
def extractPluginSnippetsS
    (items : Option (List (String × List (String × PluginContentItem)))) :
    List String :=
  match items with
  | none => []
  | some m =>
    (m.map (fun pn =>
      pn.2.map (fun it => "[" ++ pn.1 ++ "/" ++ it.1 ++ "]\n" ++ it.2.text))).flatten

/-- `extractScreenshots`: keep `file`-typed parts with an `image/` media
type, take their payload, and drop absent or empty payloads
(`.map(p => p.data!).filter(Boolean)`). -/
def extractScreenshotsS (parts : List MessagePart) : List String :=
  ((parts.filter (fun p =>
      p.type == "file" &&
        (match p.mimeType with
         | some m => m.startsWith "image/"
         | none => false))).map (fun p => p.data)).filterMap
    (fun d => match d with
      | some s => if s = "" then none else some s
      | none => none)

/-- Spec-side description of the wire message (§4.3/§8 of the design):
images first in input order, then one text attachment that concatenates a
labelled DOM block (only if present), a labelled plugin block (snippets
joined by newlines, only if any), and the raw user text, each section
separated from the next by a blank line. -/
def buildMessageSpec (input : ClaudeCodeInput) : StreamJsonUserMessage :=
  let domBlock := match input.domContext with
    | some d => if d = "" then "" else "[用户选中的DOM元素]\n" ++ d ++ "\n\n"
    | none => ""
  let pluginBlock := match input.pluginSnippets with
    | some l =>
      if l = [] then "" else "[项目上下文]\n" ++ joinWith "\n" l ++ "\n\n"
    | none => ""
  { type := "user",
    message :=
      { role := "user",
        content :=
          ((input.screenshots.getD []).map
            (fun s => WireContent.image "base64" "image/png" s)) ++
          [WireContent.text (domBlock ++ pluginBlock ++ input.text)] } }

/-! ## Process supervisor (`process-manager.ts`, `spawnClaudeCode`)

`spawnClaudeCode(config, sessionId?, onExit?)` is modelled at the JavaScript
level: the two optional trailing parameters receive arbitrary JS values
(`undefined`, a string, or a function), because the call site in
`ClaudeCodeAgent.ts` passes a function in the `sessionId` position.  The
observable result records the argument vector, the working directory, which
events get listeners, and whether the registered exit observer will invoke a
caller-supplied callback (`onExit?.(code)` is a no-op when `onExit` is
`undefined`). -/

/-- A JavaScript value as far as this code inspects one. -/
inductive JSArg where
  | undef : JSArg
  | str : String → JSArg
  | func : JSArg
deriving DecidableEq, Repr

/-- JS truthiness of such a value. -/
def JSArg.truthy : JSArg → Bool
  | .undef => false
  | .str s => !(s == "")
  | .func => true

/-- `ClaudeCodeAgentConfig`. -/
structure ClaudeCodeAgentConfig where
  command : String
  cwd : String
  skipPermissions : Bool
  appendSystemPrompt : Option String
  allowedTools : Option (List String)
deriving DecidableEq, Repr

/-- The argument vector built by `spawnClaudeCode` (JS `args.push` calls;
`sessionId` is pushed as-is after `--resume` whenever it is truthy). -/
def buildArgs (config : ClaudeCodeAgentConfig) (sessionId : JSArg) :
    List JSArg :=
  let args : List JSArg :=
    [.str "-p", .str "--input-format", .str "stream-json",
     .str "--output-format", .str "stream-json", .str "--verbose"]
  let args := if sessionId.truthy then args ++ [.str "--resume", sessionId]
              else args
  let args := if config.skipPermissions then
                args ++ [.str "--dangerously-skip-permissions"]
              else args
  let args := match config.appendSystemPrompt with
    | some s => if s ≠ "" then args ++ [.str "--append-system-prompt", .str s]
                else args
    | none => args
  let args := match config.allowedTools with
    | some ts => if ts ≠ [] then
                   args ++ (JSArg.str "--allowed-tools" :: ts.map JSArg.str)
                 else args
    | none => args
  args

/-- The observable effects of one `spawnClaudeCode` call. -/
structure SpawnResult where
  args : List JSArg
  cwd : String
  processListeners : List String
  stderrListeners : List String
  exitInvokesCallback : Bool
  killSignal : String
deriving DecidableEq, Repr

/-- `spawnClaudeCode`: builds the argument vector, spawns with the
configured working directory, registers an `'exit'` listener on the process
(whose body is `onExit?.(code)`) and a `'data'` listener on stderr, and
returns a handle whose `kill` sends SIGTERM.  No other listener is
registered. -/
def spawnClaudeCodeS (config : ClaudeCodeAgentConfig)
    (sessionId onExit : JSArg) : SpawnResult :=
  { args := buildArgs config sessionId,
    cwd := config.cwd,
    processListeners := ["exit"],
    stderrListeners := ["data"],
    exitInvokesCallback := match onExit with | .func => true | _ => false,
    killSignal := "SIGTERM" }

/-- The spawn call exactly as `ClaudeCodeAgent.handleUserMessage` makes it:
`spawnClaudeCode(this.config, () => {...})` — the arrow function that clears
`isWorking` is passed in the second (`sessionId`) position and nothing is
passed in the third (`onExit`) position. -/
def agentSpawnCall (config : ClaudeCodeAgentConfig) : SpawnResult :=
  spawnClaudeCodeS config JSArg.func JSArg.undef

/-! ## Event reconciler (`ClaudeCodeAgent.ts`)

`this.karton.setState(draft => ...)` mutations are modelled as transactional
state updates.  An access `draft.chats[chatId]!.messages` on a missing chat
throws a `TypeError`, which aborts the update; such partial operations
return `Option`. -/

/-- `draft.chats[chatId]!....` record access followed by an in-place update
of that chat: `none` models the thrown `TypeError` when the key is absent. -/
def recordUpdate (chats : List (String × Chat)) (k : String) (f : Chat → Chat) :
    Option (List (String × Chat)) :=
  match chats.lookup k with
  | none => none
  | some _ =>
    some (chats.map (fun p => bif p.1 == k then (p.1, f p.2) else p))

/-- `record[k] = v`: overwrite in place when the key exists, otherwise append
(insertion order of JS string-keyed objects). -/
def recordSet (chats : List (String × Chat)) (k : String) (v : Chat) :
    List (String × Chat) :=
  bif (chats.lookup k).isSome then
    chats.map (fun p => bif p.1 == k then (p.1, v) else p)
  else chats ++ [(k, v)]

/-- In-place update of the element at index `i` (JS element assignment). -/
def modifyAt {α : Type _} : List α → Nat → (α → α) → List α
  | [], _, _ => []
  | x :: xs, 0, f => f x :: xs
  | x :: xs, n + 1, f => x :: modifyAt xs n f

/-- `Array.prototype.findIndex`: index of the first match, `none` for -1. -/
def findIdxO {α : Type _} (p : α → Bool) : List α → Option Nat
  | [] => none
  | x :: xs => if p x then some 0 else (findIdxO p xs).map (· + 1)

/-- The part literal `{type: 'text', text}` pushed by the handler. -/
def textPartV (t : String) : MessagePart :=
  { type := "text", text := some t, data := none, mimeType := none }

/-- The `assistant` branch's part update: find the first `text` part; if
found, overwrite its `text` field, otherwise push `{type:'text', text}`. -/
def applyAssistantParts (parts : List MessagePart) (t : String) :
    List MessagePart :=
  match findIdxO (fun p => p.type == "text") parts with
  | some i => modifyAt parts i (fun p => { p with text := some t })
  | none => parts ++ [textPartV t]

/-- The `assistant` branch's message update: find the message with the
placeholder id (`findIndex`); when present, update its parts. -/
def applyAssistantText (msgs : List ChatMessage) (mid : String) (t : String) :
    List ChatMessage :=
  match findIdxO (fun m => m.id == mid) msgs with
  | some i => modifyAt msgs i (fun m =>
      { m with parts := applyAssistantParts m.parts t })
  | none => msgs

/-- `event.message?.content?.filter(c => c.type === 'text')
      .map(c => c.text ?? '').join('')`: `none` models `undefined`. -/
def eventTextS (e : StreamEvent) : Option String :=
  e.message.map (fun m =>
    String.join (((m.content.filter (fun c => c.type == "text")).map
      (fun c => c.text.getD ""))))

/-- `handleStreamEvent`: on an `assistant` event whose concatenated text is
truthy, replace (or create) the placeholder's text part; `result`, `system`
and all other event kinds only log and leave the state unchanged.  `none`
models a thrown `TypeError` (missing chat), which the caller's try/catch
turns into loop exit. -/
def handleStreamEventS (st : AgentState) (e : StreamEvent)
    (chatId assistantMessageId : String) : Option AgentState :=
  if st.kartonInit = false then some st
  else if e.type == "assistant" then
    match eventTextS e with
    | some t =>
      if t = "" then some st
      else
        match recordUpdate st.karton.chats chatId (fun ch =>
          { ch with messages :=
              applyAssistantText ch.messages assistantMessageId t }) with
        | none => none
        | some chats' =>
          some { st with karton := { st.karton with chats := chats' } }
    | none => some st
  else some st

/-- The `for await … try/catch` read loop of `handleUserMessage` step 6:
process decoded events in order; a thrown error is caught and exits the
loop, keeping the state reached so far. -/
def runEvents (chatId assistantMessageId : String) :
    AgentState → List StreamEvent → AgentState
  | st, [] => st
  | st, e :: es =>
    match handleStreamEventS st e chatId assistantMessageId with
    | some st' => runEvents chatId assistantMessageId st' es
    | none => st

/-- Step 1 of `handleUserMessage`: set `isWorking` and append the user
message to the active chat in one state update (`none` = thrown
`TypeError` on a missing chat, aborting the whole update). -/
def startTurnS (st : AgentState) (chatId : String) (msg : ChatMessage) :
    Option AgentState :=
  (recordUpdate st.karton.chats chatId (fun ch =>
    { ch with messages := ch.messages ++ [msg] })).map (fun chats' =>
      { st with karton :=
          { st.karton with isWorking := true, chats := chats' } })

/-- Step 5 of `handleUserMessage`: append the placeholder assistant message
to the active chat. -/
def appendMessageS (st : AgentState) (chatId : String) (msg : ChatMessage) :
    Option AgentState :=
  (recordUpdate st.karton.chats chatId (fun ch =>
    { ch with messages := ch.messages ++ [msg] })).map (fun chats' =>
      { st with karton := { st.karton with chats := chats' } })

/-- The placeholder assistant message: empty parts, fresh id. -/
def placeholderMessage (assistantMessageId : String) (now : Nat) :
    ChatMessage :=
  { id := assistantMessageId, role := "assistant", parts := [],
    metadata := { createdAt := now, browserData := none,
                  pluginContentItems := none } }

/-- The outcome of one `handleUserMessage` call: the final state, whether a
subprocess was spawned, and the wire message written to its stdin. -/
structure TurnResult where
  state : AgentState
  spawned : Bool
  sent : Option StreamJsonUserMessage
deriving DecidableEq, Repr

/-- `handleUserMessage`: guard on an uninitialised agent and on a falsy
`activeChatId`; then set `isWorking` and append the user message, build the
wire message, spawn the subprocess, write the message, append the assistant
placeholder, run the read loop over the decoded events (an arbitrary prefix
of the subprocess output, truncated at a stream error), and finally clear
the process handle and `isWorking`.  `events` is the list of events the
decoder yields before the channel closes or errors; `none` models an
uncaught `TypeError` thrown by a state update outside the try/catch. -/
def handleUserMessageS (st : AgentState) (msg : ChatMessage)
    (assistantMessageId : String) (now : Nat) (events : List StreamEvent) :
    Option TurnResult :=
  if st.kartonInit = false then some ⟨st, false, none⟩
  else
    match st.karton.activeChatId with
    | none => some ⟨st, false, none⟩
    | some chatId =>
      if chatId = "" then some ⟨st, false, none⟩
      else
        match startTurnS st chatId msg with
        | none => none
        | some st1 =>
          let input : ClaudeCodeInput :=
            { text := ((msg.parts.find? (fun p => p.type == "text")).bind
                (fun p => p.text)).getD "",
              domContext := serializeDomContextS msg.metadata.browserData,
              screenshots := some (extractScreenshotsS msg.parts),
              pluginSnippets :=
                some (extractPluginSnippetsS msg.metadata.pluginContentItems) }
          let sjm := buildStreamJsonMessageS input
          let st2 := { st1 with currentProcess := true }
          match appendMessageS st2 chatId
              (placeholderMessage assistantMessageId now) with
          | none => none
          | some st3 =>
            let st4 := runEvents chatId assistantMessageId st3 events
            let st5 := { st4 with currentProcess := false }
            let st6 :=
              { st5 with karton := { st5.karton with isWorking := false } }
            some ⟨st6, true, some sjm⟩

/-- `abort`: kill and release the process handle when one is live, then
clear `isWorking` (`this.karton?.setState` is a no-op when uninitialised). -/
def abortS (st : AgentState) : AgentState :=
  let st1 := if st.currentProcess then { st with currentProcess := false }
             else st
  if st1.kartonInit then
    { st1 with karton := { st1.karton with isWorking := false } }
  else st1

/-! ## Session store operations (`createAndActivateNewChat`, `deleteChat`)

These run on the Karton state (the procedures exist only once the server is
created, so `this.karton` is non-null there).  `generateId()` is modelled by
a caller-supplied fresh id, `new Date()` by a timestamp. -/

/-- The chat literal created by `createAndActivateNewChat`. -/
def newChatV (now : Nat) : Chat :=
  { title := "New Chat", createdAt := now, messages := [] }

/-- `createAndActivateNewChat`: insert a fresh chat and activate it. -/
def createAndActivateNewChatS (st : KartonState) (freshId : String)
    (now : Nat) : KartonState :=
  { st with chats := recordSet st.chats freshId (newChatV now),
            activeChatId := some freshId }

/-- `deleteChat`: when the deleted chat is active, look up the first other
chat key; `if (!nextChatId)` is a JS truthiness test — true both when
`find` returned `undefined` and when the found key is the empty string —
and then a fresh chat is created and activated, otherwise the found key is
promoted; finally the chat's record entry is deleted. -/
def deleteChatS (st : KartonState) (freshId : String) (now : Nat)
    (chatId : String) : KartonState :=
  let st1 :=
    if st.activeChatId = some chatId then
      match (st.chats.map Prod.fst).find? (fun id => id != chatId) with
      | none => createAndActivateNewChatS st freshId now
      | some nextChatId =>
        if nextChatId = "" then createAndActivateNewChatS st freshId now
        else { st with activeChatId := some nextChatId }
    else st
  { st1 with chats := st1.chats.filter (fun p => p.1 != chatId) }

/-- The Session invariant of the design: at most one active chat (structural:
`activeChatId` is a single field), and if any chat exists the active id is
non-null and names an existing chat. -/
def sessionInvariant (st : KartonState) : Prop :=
  st.chats = [] ∨ ∃ x, st.activeChatId = some x ∧ (st.chats.lookup x).isSome

/-! ## Proof devices -/

/-- Glue for splitting a concatenation: how the split of `u ++ v` is built
from the splits of `u` and of `v`. -/
def glueSplit (a b : List (List Char) × List Char) :
    List (List Char) × List Char :=
  match b.1 with
  | [] => (a.1, a.2 ++ b.2)
  | l :: ls => (a.1 ++ (a.2 ++ l) :: ls, b.2)

/-- The truthy concatenated text of one decoded event as the `assistant`
branch computes it: `some t` exactly when the event is `assistant`-typed and
its concatenated text fragments are non-empty. -/
def truthyText (e : StreamEvent) : Option String :=
  if e.type == "assistant" then
    match eventTextS e with
    | some t => if t = "" then none else some t
    | none => none
  else none

/-- Last truthy text over an event list, starting from `acc`. -/
def lastTruthyAux : Option String → List StreamEvent → Option String
  | acc, [] => acc
  | acc, e :: es =>
    lastTruthyAux (match truthyText e with | some t => some t | none => acc) es

/-- The last event with truthy concatenated text, if any (spec side: "the
last non-empty event's concatenated text"). -/
def lastTruthy (es : List StreamEvent) : Option String := lastTruthyAux none es

/-- The effect of one decoded event on the placeholder's part list. -/
def stepParts (ps : List MessagePart) (e : StreamEvent) : List MessagePart :=
  match truthyText e with
  | some t => applyAssistantParts ps t
  | none => ps

/-- The placeholder's part list determined by the last truthy text. -/
def partsOf : Option String → List MessagePart
  | none => []
  | some t => [textPartV t]

/-- The chat-record update performed by a truthy `assistant` event. -/
def assistantChatsUpdate (chats : List (String × Chat)) (cid mid t : String) :
    List (String × Chat) :=
  chats.map (fun p => bif p.1 == cid then
    (p.1, { p.2 with messages := applyAssistantText p.2.messages mid t })
    else p)

/-- The whole-state effect of a truthy `assistant` event. -/
def assistantStateUpdate (st : AgentState) (cid mid t : String) : AgentState :=
  { st with karton :=
      { st.karton with
          chats := assistantChatsUpdate st.karton.chats cid mid t } }

/-! ## Stream decoder lemmas -/

theorem splitNL_cons (c : Char) (rest : List Char) :
    splitNL (c :: rest) =
      if c = '\n' then ([] :: (splitNL rest).1, (splitNL rest).2)
      else
        match (splitNL rest).1 with
        | [] => ([], c :: (splitNL rest).2)
        | l :: ls => ((c :: l) :: ls, (splitNL rest).2) := by
  simp only [splitNL]

theorem splitNL_rem_no_nl (s : List Char) : '\n' ∉ (splitNL s).2 := by
  induction s with
  | nil => simp [splitNL]
  | cons c rest ih =>
    rw [splitNL_cons]
    by_cases hc : c = '\n'
    · simpa [hc] using ih
    · rcases h : (splitNL rest).1 with _ | ⟨l, ls⟩ <;> simp_all [eq_comm]

theorem splitNL_of_no_nl (s : List Char) (h : '\n' ∉ s) :
    splitNL s = ([], s) := by
  induction s with
  | nil => rfl
  | cons c rest ih =>
    simp only [List.mem_cons, not_or] at h
    simp only [splitNL, ih h.2]
    simp [Ne.symm h.1, fun hcn => h.1 hcn]

theorem splitNL_append (u v : List Char) :
    splitNL (u ++ v) = glueSplit (splitNL u) (splitNL v) := by
  induction u with
  | nil =>
    rcases hv : splitNL v with ⟨lv, rv⟩
    rcases lv with _ | ⟨l, ls⟩ <;> simp [glueSplit, splitNL, hv]
  | cons c u ih =>
    rw [List.cons_append, splitNL_cons, splitNL_cons, ih]
    rcases hu : splitNL u with ⟨lu, ru⟩
    rcases hv : splitNL v with ⟨lv, rv⟩
    by_cases hc : c = '\n' <;>
      rcases lv with _ | ⟨l, ls⟩ <;>
        rcases lu with _ | ⟨m, ms⟩ <;>
          simp [glueSplit, hc, hu, hv]

theorem processLines_append {E : Type _} (p : List Char → Option E)
    (xs ys : List (List Char)) :
    processLines p (xs ++ ys) = processLines p xs ++ processLines p ys := by
  simp [processLines]

theorem feed_append {E : Type _} (p : List Char → Option E)
    (s : List Char × List E) (a b : List Char) :
    feed p (feed p s a) b = feed p s (a ++ b) := by
  rcases s with ⟨buf, out⟩
  simp only [feed]
  rw [show buf ++ (a ++ b) = (buf ++ a) ++ b by simp]
  rw [splitNL_append (buf ++ a) b]
  rw [splitNL_append ((splitNL (buf ++ a)).2) b]
  rw [splitNL_of_no_nl _ (splitNL_rem_no_nl (buf ++ a))]
  rcases hb : splitNL b with ⟨lb, rb⟩
  rcases lb with _ | ⟨l, ls⟩ <;>
    simp [glueSplit, processLines_append, processLines]

theorem foldl_feed {E : Type _} (p : List Char → Option E)
    (cs : List (List Char)) :
    ∀ (z : List Char × List E) (a : List Char),
      cs.foldl (feed p) (feed p z a) = feed p z (a ++ cs.flatten) := by
  induction cs with
  | nil => intro z a; simp
  | cons c cs ih =>
    intro z a
    rw [List.foldl_cons, feed_append, ih, List.flatten_cons, List.append_assoc]

theorem feedAll_eq_flatten {E : Type _} (p : List Char → Option E)
    (chunks : List (List Char)) :
    feedAll p chunks = feed p ([], []) chunks.flatten := by
  cases chunks with
  | nil => simp [feedAll, feed, splitNL, processLines]
  | cons c cs =>
    rw [feedAll, List.foldl_cons, foldl_feed, List.flatten_cons]

/-- **C3** (amended).  The decoder's output depends only on the decoded
character stream, not on how it is cut into chunks: for every chunking at
character granularity (equivalently, any byte chunking whose boundaries do
not split a multi-byte UTF-8 sequence), the emitted events are exactly the
line-by-line decode of the concatenated stream — the complete
newline-delimited lines in their original order, whitespace-only lines
skipped, followed by the residual buffer parsed as one final record. -/
theorem parseStream_chunk_invariant {E : Type _} (p : List Char → Option E)
    (chunks : List (List Char)) :
    parseStreamJsonC p chunks = parseStreamJsonC p [chunks.flatten] ∧
    parseStreamJsonC p chunks =
      processLines p
        ((splitNL chunks.flatten).1 ++ [(splitNL chunks.flatten).2]) := by
  have hone : ∀ s : List Char,
      parseStreamJsonC p [s] =
        processLines p ((splitNL s).1 ++ [(splitNL s).2]) := by
    intro s
    simp only [parseStreamJsonC, feedAll, List.foldl_cons, List.foldl_nil,
      feed, List.nil_append, processLines_append]
    cases hl : processLine p (splitNL s).2 <;>
      simp [processLines, Option.toList, hl]
  have hmain : parseStreamJsonC p chunks =
      processLines p ((splitNL chunks.flatten).1 ++ [(splitNL chunks.flatten).2]) := by
    simp only [parseStreamJsonC, feedAll_eq_flatten, feed, List.nil_append,
      processLines_append]
    cases hl : processLine p (splitNL chunks.flatten).2 <;>
      simp [processLines, Option.toList, hl]
  exact ⟨by rw [hmain, hone], hmain⟩

/-- **C3** (counterexample to the claim as stated).  The same byte sequence
`0x22 0xC3 0xA9 0x22` (the JSON string literal `"é"`), delivered one byte
per chunk versus as a single chunk, decodes to different event sequences:
the split 2-byte UTF-8 character becomes two replacement characters because
every chunk is converted to text independently. -/
theorem parseStream_byte_chunking_cex :
    parseStreamJsonBytes jsonStringLite [[0x22], [0xC3], [0xA9], [0x22]] ≠
      parseStreamJsonBytes jsonStringLite [[0x22, 0xC3, 0xA9, 0x22]] := by
  decide

theorem parseStream_single {E : Type _} (p : List Char → Option E)
    (s : List Char) :
    parseStreamJsonC p [s] =
      processLines p ((splitNL s).1 ++ [(splitNL s).2]) := by
  simp only [parseStreamJsonC, feedAll, List.foldl_cons, List.foldl_nil,
    feed, List.nil_append, processLines_append]
  cases hl : processLine p (splitNL s).2 <;>
    simp [processLines, Option.toList, hl]

theorem splitNL_line_cons (l : List Char) (rest : List Char) (h : '\n' ∉ l) :
    splitNL (l ++ '\n' :: rest) =
      (l :: (splitNL rest).1, (splitNL rest).2) := by
  rw [splitNL_append, splitNL_of_no_nl l h, splitNL_cons]
  simp [glueSplit]

/-- **C8**.  A malformed (non-parseable) line between two valid lines is
discarded and decoding continues: both valid lines' events are yielded, in
order. -/
theorem malformed_line_recovered {E : Type _} (p : List Char → Option E)
    (a b c : List Char) (ea ec : E)
    (hna : '\n' ∉ a) (hnb : '\n' ∉ b) (hnc : '\n' ∉ c)
    (hta : (trimChars a).isEmpty = false)
    (hpa : p (trimChars a) = some ea)
    (hpb : p (trimChars b) = none)
    (htc : (trimChars c).isEmpty = false)
    (hpc : p (trimChars c) = some ec) :
    parseStreamJsonC p [a ++ '\n' :: (b ++ '\n' :: (c ++ ['\n']))] =
      [ea, ec] := by
  rw [parseStream_single]
  rw [splitNL_line_cons a _ hna, splitNL_line_cons b _ hnb,
    splitNL_line_cons c _ hnc]
  have hb : processLine p b = none := by
    unfold processLine
    cases hbe : (trimChars b).isEmpty <;> simp [hbe, hpb]
  have ha : processLine p a = some ea := by
    unfold processLine; simp [hta, hpa]
  have hc2 : processLine p c = some ec := by
    unfold processLine; simp [htc, hpc]
  have hnil : processLine p ([] : List Char) = none := by
    unfold processLine; simp [trimChars]
  simp [processLines, splitNL, List.filterMap_cons, ha, hb, hc2, hnil]

/-- **C8** witness: with a line parser accepting exactly `x` and `z`, the
stream `x\ny\nz\n` yields both valid events and skips the malformed `y`. -/
theorem malformed_line_recovered_witness :
    parseStreamJsonC
        (fun l => if l = ['x'] then some 1 else
                  if l = ['z'] then some 2 else none)
        [['x'] ++ '\n' :: (['y'] ++ '\n' :: (['z'] ++ ['\n']))] =
      [1, 2] :=
  malformed_line_recovered
    (fun l => if l = ['x'] then some 1 else
              if l = ['z'] then some 2 else none)
    ['x'] ['y'] ['z'] 1 2 (by decide) (by decide) (by decide) (by decide)
    (by decide) (by decide) (by decide) (by decide)

/-! ## Prompt composer theorems -/

/-- **C7**.  `buildStreamJsonMessage` is a deterministic pure function whose
content array is one base64 `image/png` attachment per screenshot in input
order followed by exactly one text attachment concatenating the labelled
DOM-context block (only if present), the labelled plugin-context block with
newline-joined snippets (only if any), and the raw user text, with sections
separated by a blank line; in particular screenshots `["AAA","BBB"]` with
text `"hi"` yield `[image AAA, image BBB, text "hi"]`. -/
theorem buildMessage_matches_spec (input : ClaudeCodeInput) :
    buildStreamJsonMessageS input = buildMessageSpec input ∧
    (buildStreamJsonMessageS
        { text := "hi", domContext := none, screenshots := some ["AAA", "BBB"],
          pluginSnippets := none }).message.content =
      [WireContent.image "base64" "image/png" "AAA",
       WireContent.image "base64" "image/png" "BBB",
       WireContent.text "hi"] := by
  constructor
  · rcases input with ⟨text, dom, shots, plugs⟩
    simp only [buildStreamJsonMessageS, buildMessageSpec, buildPromptTextS]
    rcases dom with _ | d <;> rcases plugs with _ | l
    · simp [joinWith]
    · by_cases hl : l = [] <;> simp [hl, joinWith, String.append_assoc]
    · by_cases hd : d = "" <;> simp [hd, joinWith, String.append_assoc]
    · by_cases hd : d = "" <;> by_cases hl : l = [] <;>
        simp [hd, hl, joinWith, String.append_assoc]
  · decide

/-! ## Process supervisor theorems -/

/-- **C5** (the code at the failing input).  `spawnClaudeCode` registers
listeners only for the process `'exit'` event and the stderr `'data'` event:
no `'error'` listener is ever installed, so the `'error'` event that Node
emits for a spawn failure (missing executable, permission error) reaches no
handler, and no failure result is reported to the caller of the
turn-initiation operation. -/
theorem spawn_error_event_unobserved (config : ClaudeCodeAgentConfig)
    (sessionId onExit : JSArg) :
    "error" ∉ (spawnClaudeCodeS config sessionId onExit).processListeners ∧
    "error" ∉ (spawnClaudeCodeS config sessionId onExit).stderrListeners := by
  simp [spawnClaudeCodeS]

/-- **C6** (the code at the failing input).  At the one call site of
`spawnClaudeCode` inside a turn, the exit-handling arrow function is passed
in the `sessionId` parameter position: the built argument vector therefore
contains `--resume` followed by the function value even though no prior
session identifier was supplied, and the registered exit observer invokes no
caller-supplied callback because `onExit` is `undefined`. -/
theorem spawn_callsite_resume_bug :
    JSArg.str "--resume" ∈
        (agentSpawnCall
          { command := "claude", cwd := "/repo", skipPermissions := true,
            appendSystemPrompt := none, allowedTools := none }).args ∧
    JSArg.func ∈
        (agentSpawnCall
          { command := "claude", cwd := "/repo", skipPermissions := true,
            appendSystemPrompt := none, allowedTools := none }).args ∧
    (agentSpawnCall
        { command := "claude", cwd := "/repo", skipPermissions := true,
          appendSystemPrompt := none, allowedTools := none }).exitInvokesCallback
      = false := by
  decide

/-! ## Session store and reconciler lemmas -/

theorem lookup_mapUpdate (chats : List (String × Chat)) (k : String)
    (f : Chat → Chat) (v : Chat) (h : chats.lookup k = some v) :
    (chats.map (fun p => bif p.1 == k then (p.1, f p.2) else p)).lookup k =
      some (f v) := by
  induction chats with
  | nil => simp at h
  | cons p rest ih =>
    rcases p with ⟨a, w⟩
    by_cases hk : k = a
    · subst hk
      have hb : (k == k) = true := by simp
      simp only [List.lookup, List.map_cons, hb, cond_true] at h ⊢
      simp only [Option.some.injEq] at h ⊢
      rw [h]
    · have hb : (k == a) = false := by simp [hk]
      have hb2 : (a == k) = false := by simp [Ne.symm hk]
      simp only [List.lookup, List.map_cons, hb, hb2, cond_false] at h ⊢
      exact ih h

theorem startTurnS_some (st : AgentState) (c : String) (msg : ChatMessage)
    (ch : Chat) (hmem : st.karton.chats.lookup c = some ch) :
    startTurnS st c msg = some
      { st with karton :=
          { { st.karton with isWorking := true } with
              chats := st.karton.chats.map (fun p => bif p.1 == c
                then (p.1, { p.2 with messages := p.2.messages ++ [msg] })
                else p) } } := by
  simp [startTurnS, recordUpdate, hmem]

theorem appendMessageS_some (st : AgentState) (c : String) (msg : ChatMessage)
    (ch : Chat) (hmem : st.karton.chats.lookup c = some ch) :
    appendMessageS st c msg = some
      { st with karton := { st.karton with
          chats := st.karton.chats.map (fun p => bif p.1 == c
            then (p.1, { p.2 with messages := p.2.messages ++ [msg] })
            else p) } } := by
  simp [appendMessageS, recordUpdate, hmem]

/-- **C10**.  A user message arriving when the agent is uninitialised or no
chat is active is ignored: the state is unchanged, no message is appended,
no subprocess is spawned, nothing is written. -/
theorem inactive_message_ignored (st : AgentState) (msg : ChatMessage)
    (amid : String) (now : Nat) (events : List StreamEvent)
    (h : st.kartonInit = false ∨ st.karton.activeChatId = none) :
    handleUserMessageS st msg amid now events = some ⟨st, false, none⟩ := by
  rcases h with h | h
  · simp [handleUserMessageS, h]
  · by_cases hk : st.kartonInit = false <;> simp [handleUserMessageS, h, hk]

/-- **C10** witness: an uninitialised agent ignores a concrete message. -/
theorem inactive_message_ignored_witness :
    handleUserMessageS ⟨false, ⟨none, [], false⟩, false⟩
        ⟨"u", "user", [], ⟨0, none, none⟩⟩ "m" 0 [] =
      some ⟨⟨false, ⟨none, [], false⟩, false⟩, false, none⟩ :=
  inactive_message_ignored _ _ _ _ _ (Or.inl rfl)

theorem startTurnS_isSome (st : AgentState) (c : String) (msg : ChatMessage)
    (h : (st.karton.chats.lookup c).isSome) :
    ∃ st1, startTurnS st c msg = some st1 ∧ st1.karton.isWorking = true ∧
      st1.kartonInit = st.kartonInit ∧
      (st1.karton.chats.lookup c).isSome := by
  rcases hm : st.karton.chats.lookup c with _ | ch
  · rw [hm] at h; simp at h
  · refine ⟨_, startTurnS_some st c msg ch hm, rfl, rfl, ?_⟩
    have hlk := lookup_mapUpdate st.karton.chats c
      (fun x => { x with messages := x.messages ++ [msg] }) ch hm
    simp only at hlk ⊢
    simp [hlk]

theorem appendMessageS_isSome (st : AgentState) (c : String)
    (msg : ChatMessage) (h : (st.karton.chats.lookup c).isSome) :
    ∃ st3, appendMessageS st c msg = some st3 := by
  rcases hm : st.karton.chats.lookup c with _ | ch
  · rw [hm] at h; simp at h
  · exact ⟨_, appendMessageS_some st c msg ch hm⟩

/-- **C2**.  Every turn started by submitting a user message to an active
chat sets `isWorking` immediately at turn start (the first state update of
the turn) and unconditionally clears it at the turn's end, whatever prefix
of events the stream delivered before completing or failing mid-stream;
`abort` likewise clears `isWorking`. -/
theorem turn_clears_isWorking (st : AgentState) (msg : ChatMessage)
    (amid : String) (now : Nat) (events : List StreamEvent)
    (c : String) (ch : Chat)
    (hk : st.kartonInit = true) (hc : st.karton.activeChatId = some c)
    (hne : c ≠ "") (hmem : st.karton.chats.lookup c = some ch) :
    (∀ st1, startTurnS st c msg = some st1 → st1.karton.isWorking = true) ∧
    (∃ r, handleUserMessageS st msg amid now events = some r ∧
        r.state.karton.isWorking = false ∧
        r.state.currentProcess = false ∧ r.spawned = true) ∧
    (abortS st).karton.isWorking = false := by
  refine ⟨?_, ?_, ?_⟩
  · intro st1 h1
    rw [startTurnS_some st c msg ch hmem] at h1
    simp only [Option.some.injEq] at h1
    rw [← h1]
  · simp only [handleUserMessageS, hk, hc]
    rw [if_neg (by simp : ¬(true = false))]
    try dsimp only
    rw [if_neg hne]
    obtain ⟨st1, h1, hw1, hki1, hlk1⟩ :=
      startTurnS_isSome st c msg (by rw [hmem]; rfl)
    rw [h1]
    try dsimp only
    obtain ⟨st3, h3⟩ := appendMessageS_isSome
      { st1 with currentProcess := true } c (placeholderMessage amid now) hlk1
    rw [h3]
    try dsimp only
    exact ⟨_, rfl, rfl, rfl, rfl⟩
  · rcases st with ⟨ki, kst, cp⟩
    simp only [AgentState.kartonInit] at hk
    subst hk
    cases cp <;> simp [abortS]

/-- **C2** witness: a concrete turn on an active chat ends with `isWorking`
cleared and the process handle released. -/
theorem turn_clears_isWorking_witness :
    ∃ r, handleUserMessageS
        ⟨true, ⟨some "c", [("c", ⟨"New Chat", 0, []⟩)], false⟩, false⟩
        ⟨"u", "user", [⟨"text", some "fix bug", none, none⟩], ⟨0, none, none⟩⟩
        "m" 1 [] = some r ∧
      r.state.karton.isWorking = false ∧
      r.state.currentProcess = false ∧ r.spawned = true :=
  (turn_clears_isWorking
    ⟨true, ⟨some "c", [("c", ⟨"New Chat", 0, []⟩)], false⟩, false⟩
    ⟨"u", "user", [⟨"text", some "fix bug", none, none⟩], ⟨0, none, none⟩⟩
    "m" 1 [] "c" ⟨"New Chat", 0, []⟩
    rfl rfl (by decide) (by decide)).2.1

/-- **C9** (counterexample to the claim as stated).  When the single other
chat's id is the empty string, deleting the active chat does not activate
that other chat: the JS-falsy check `if (!nextChatId)` treats the empty
string like "no other chat", so a fresh chat is activated instead. -/
theorem deleteChat_empty_id_cex :
    (deleteChatS
        ⟨some "a", [("a", ⟨"A", 0, []⟩), ("", ⟨"B", 1, []⟩)], false⟩
        "f" 2 "a").activeChatId ≠ some "" := by
  decide

/-- **C9** (amended).  Deleting the active chat when exactly one other chat
exists activates that other chat provided its id is non-empty (in either
record order); when the only other chat's id is the empty string — falsy
in JS, hence treated like "no other chat" — or when no other chat exists,
a fresh chat is created and activated instead; in all these cases the
Session invariant — at most one active chat, and a non-null active id
naming an existing chat whenever any chat exists — holds afterwards. -/
theorem deleteChat_promotes (a b f : String) (cha chb : Chat) (now : Nat)
    (w : Bool) (ha0 : a ≠ "") (hba : b ≠ a) (hb0 : b ≠ "") (hfa : f ≠ a)
    (hf0 : f ≠ "") :
    (deleteChatS ⟨some a, [(a, cha), (b, chb)], w⟩ f now a =
        ⟨some b, [(b, chb)], w⟩) ∧
    (deleteChatS ⟨some a, [(b, chb), (a, cha)], w⟩ f now a =
        ⟨some b, [(b, chb)], w⟩) ∧
    (deleteChatS ⟨some a, [(a, cha)], w⟩ f now a =
        ⟨some f, [(f, newChatV now)], w⟩) ∧
    (deleteChatS ⟨some a, [(a, cha), ("", chb)], w⟩ f now a =
        ⟨some f, [("", chb), (f, newChatV now)], w⟩) ∧
    sessionInvariant ⟨some b, [(b, chb)], w⟩ ∧
    sessionInvariant ⟨some f, [(f, newChatV now)], w⟩ ∧
    sessionInvariant ⟨some f, [("", chb), (f, newChatV now)], w⟩ := by
  have h1 : (a != a) = false := by simp
  have h2 : (b != a) = true := by simp [hba]
  have h3 : (f != a) = true := by simp [hfa]
  have h4 : (f == a) = false := by simp [hfa]
  have h5 : ("" != a) = true := by simp [Ne.symm ha0]
  have h6 : (f == "") = false := by simp [hf0]
  refine ⟨?_, ?_, ?_, ?_, ?_, ?_, ?_⟩
  · simp [deleteChatS, List.find?, List.filter, h1, h2, hb0]
  · simp [deleteChatS, List.find?, List.filter, h1, h2, hb0]
  · simp [deleteChatS, createAndActivateNewChatS, recordSet, List.find?,
      List.filter, List.lookup, h1, h3, h4]
  · simp [deleteChatS, createAndActivateNewChatS, recordSet, List.find?,
      List.filter, List.lookup, h1, h3, h4, h5, h6]
  · exact Or.inr ⟨b, rfl, by simp [List.lookup]⟩
  · exact Or.inr ⟨f, rfl, by simp [List.lookup]⟩
  · exact Or.inr ⟨f, rfl, by simp [List.lookup, h6]⟩

/-- **C9** witness: concrete two-chat deletion with a non-empty other id. -/
theorem deleteChat_promotes_witness :
    deleteChatS ⟨some "a", [("a", ⟨"A", 0, []⟩), ("b", ⟨"B", 1, []⟩)], false⟩
        "f" 2 "a" =
      ⟨some "b", [("b", ⟨"B", 1, []⟩)], false⟩ :=
  (deleteChat_promotes "a" "b" "f" ⟨"A", 0, []⟩ ⟨"B", 1, []⟩ 2 false
    (by decide) (by decide) (by decide) (by decide) (by decide)).1

/-- Concrete state for the abort scenario: an active turn whose placeholder
assistant message is still empty. -/
def c4St : AgentState :=
  ⟨true, ⟨some "c", [("c", ⟨"t", 0, [placeholderMessage "m" 0]⟩)], true⟩, true⟩

/-- A decoded `assistant` event carrying the text `"hi"`. -/
def c4Ev : StreamEvent :=
  ⟨"assistant", none, some ⟨"x", [⟨"text", some "hi"⟩]⟩, none, none, none,
   none⟩

/-- **C4** (counterexample to the claim as stated).  After `abort` has run
(killing the process, clearing the handle and `isWorking`), a further event
decoded from the aborted subprocess's buffered output still mutates the
shared chat state: the event handler never consults the process handle. -/
theorem abort_then_event_mutates :
    (handleStreamEventS (abortS c4St) c4Ev "c" "m").map
        (fun s => s.karton.chats) ≠
      some (abortS c4St).karton.chats := by
  decide

theorem handleStreamEventS_handle_indep (ki : Bool) (ac : Option String)
    (chs : List (String × Chat)) (w1 w2 cp1 cp2 : Bool) (e : StreamEvent)
    (cid amid : String) :
    (handleStreamEventS ⟨ki, ⟨ac, chs, w1⟩, cp1⟩ e cid amid).map
        (fun s => s.karton.chats) =
      (handleStreamEventS ⟨ki, ⟨ac, chs, w2⟩, cp2⟩ e cid amid).map
        (fun s => s.karton.chats) := by
  cases ki
  · simp [handleStreamEventS]
  · simp only [handleStreamEventS]
    by_cases he : (e.type == "assistant") = true
    · rcases ht : eventTextS e with _ | t
      · simp [he, ht]
      · by_cases hte : t = ""
        · simp [he, ht, hte]
        · rcases hr : recordUpdate chs cid (fun ch =>
              { ch with messages := applyAssistantText ch.messages amid t })
            with _ | chats2
          · simp [he, ht, hte, hr]
          · simp [he, ht, hte, hr]
    · simp [he]

/-- **C4** (amended).  `abort` is safe to invoke while the read loop is in
flight: it is idempotent, a no-op on the process when none is live, and it
clears the handle and `isWorking`; but the read loop does not observe the
cleared handle — events decoded after abort from the aborted subprocess's
output mutate chat state exactly as they would have before the abort, until
the output channel closes. -/
theorem abort_amended (st : AgentState) (e : StreamEvent) (cid amid : String)
    (hk : st.kartonInit = true) :
    abortS (abortS st) = abortS st ∧
    (abortS st).currentProcess = false ∧
    (abortS st).karton.isWorking = false ∧
    (handleStreamEventS (abortS st) e cid amid).map
        (fun s => s.karton.chats) =
      (handleStreamEventS st e cid amid).map (fun s => s.karton.chats) := by
  rcases st with ⟨ki, ⟨ac, chs, w⟩, cp⟩
  simp only [AgentState.kartonInit] at hk
  subst hk
  have habort : abortS ⟨true, ⟨ac, chs, w⟩, cp⟩ =
      ⟨true, ⟨ac, chs, false⟩, false⟩ := by
    cases cp <;> simp [abortS]
  refine ⟨?_, ?_, ?_, ?_⟩
  · rw [habort]
    simp [abortS]
  · rw [habort]
  · rw [habort]
  · rw [habort]
    exact handleStreamEventS_handle_indep true ac chs false w false cp e cid
      amid

/-- **C4** witness: the amended facts at the concrete aborted turn. -/
theorem abort_amended_witness :
    abortS (abortS c4St) = abortS c4St ∧
    (abortS c4St).currentProcess = false ∧
    (abortS c4St).karton.isWorking = false ∧
    (handleStreamEventS (abortS c4St) c4Ev "c" "m").map
        (fun s => s.karton.chats) =
      (handleStreamEventS c4St c4Ev "c" "m").map (fun s => s.karton.chats) :=
  abort_amended c4St c4Ev "c" "m" rfl

/-! ## Assistant text accumulation (C1) -/

theorem findIdxO_append_last {α : Type _} (p : α → Bool) (xs : List α)
    (y : α) (hxs : ∀ x ∈ xs, p x = false) (hy : p y = true) :
    findIdxO p (xs ++ [y]) = some xs.length := by
  induction xs with
  | nil => simp [findIdxO, hy]
  | cons x xs ih =>
    have hx : p x = false := hxs x (by simp)
    simp only [List.cons_append, findIdxO, hx, Bool.false_eq_true, if_false,
      List.append_eq]
    rw [ih (fun z hz => hxs z (by simp [hz]))]
    simp

theorem modifyAt_append_length {α : Type _} (xs : List α) (y : α)
    (f : α → α) :
    modifyAt (xs ++ [y]) xs.length f = xs ++ [f y] := by
  induction xs with
  | nil => rfl
  | cons x xs ih => simp [modifyAt, ih]

theorem applyAssistantText_placeholder (pre : List ChatMessage)
    (ph : ChatMessage) (mid t : String)
    (hpre : ∀ m ∈ pre, m.id ≠ mid) (hid : ph.id = mid) :
    applyAssistantText (pre ++ [ph]) mid t =
      pre ++ [{ ph with parts := applyAssistantParts ph.parts t }] := by
  unfold applyAssistantText
  rw [findIdxO_append_last _ pre ph
    (fun m hm => by simp [hpre m hm]) (by simp [hid])]
  exact modifyAt_append_length pre ph _

theorem applyAssistantParts_partsOf (acc : Option String) (t : String) :
    applyAssistantParts (partsOf acc) t = [textPartV t] := by
  cases acc
  · simp [partsOf, applyAssistantParts, findIdxO, textPartV]
  · simp [partsOf, applyAssistantParts, findIdxO, modifyAt, textPartV]

theorem foldl_stepParts (events : List StreamEvent) :
    ∀ acc : Option String,
      events.foldl stepParts (partsOf acc) =
        partsOf (lastTruthyAux acc events) := by
  induction events with
  | nil => intro acc; rfl
  | cons e es ih =>
    intro acc
    simp only [List.foldl_cons, lastTruthyAux]
    rcases ht : truthyText e with _ | t
    · simp only [stepParts, ht]
      exact ih acc
    · simp only [stepParts, ht, applyAssistantParts_partsOf]
      rw [show [textPartV t] = partsOf (some t) from rfl]
      exact ih (some t)

theorem runEvents_noop_step (st : AgentState) (c mid : String)
    (e : StreamEvent) (es : List StreamEvent)
    (hstep : handleStreamEventS st e c mid = some st) :
    runEvents c mid st (e :: es) = runEvents c mid st es := by
  simp only [runEvents, hstep]

theorem stepParts_noop (ps : List MessagePart) (e : StreamEvent)
    (htt : truthyText e = none) : stepParts ps e = ps := by
  simp [stepParts, htt]

theorem runEvents_track (events : List StreamEvent) :
    ∀ (st : AgentState) (c mid : String) (pre : List ChatMessage)
      (m0 : ChatMessage) (ch : Chat),
      st.kartonInit = true →
      st.karton.chats.lookup c = some ch →
      ch.messages = pre ++ [m0] →
      m0.id = mid →
      (∀ m ∈ pre, m.id ≠ mid) →
      ∃ ch', (runEvents c mid st events).karton.chats.lookup c = some ch' ∧
        ch'.messages =
          pre ++ [{ m0 with parts := events.foldl stepParts m0.parts }] := by
  induction events with
  | nil =>
    intro st c mid pre m0 ch hk hch hmsgs hid hpre
    exact ⟨ch, hch, by rw [hmsgs]; rfl⟩
  | cons e es ih =>
    intro st c mid pre m0 ch hk hch hmsgs hid hpre
    by_cases he : (e.type == "assistant") = true
    · rcases ht : eventTextS e with _ | t
      · have hstep : handleStreamEventS st e c mid = some st := by
          simp [handleStreamEventS, hk, he, ht]
        have htt : truthyText e = none := by simp [truthyText, he, ht]
        rw [runEvents_noop_step st c mid e es hstep, List.foldl_cons,
          stepParts_noop m0.parts e htt]
        exact ih st c mid pre m0 ch hk hch hmsgs hid hpre
      · by_cases hte : t = ""
        · have hstep : handleStreamEventS st e c mid = some st := by
            simp [handleStreamEventS, hk, he, ht, hte]
          have htt : truthyText e = none := by
            simp [truthyText, he, ht, hte]
          rw [runEvents_noop_step st c mid e es hstep, List.foldl_cons,
            stepParts_noop m0.parts e htt]
          exact ih st c mid pre m0 ch hk hch hmsgs hid hpre
        · have htt : truthyText e = some t := by
            simp [truthyText, he, ht, hte]
          have hstep : handleStreamEventS st e c mid =
              some (assistantStateUpdate st c mid t) := by
            simp [handleStreamEventS, hk, he, ht, hte, recordUpdate, hch,
              assistantStateUpdate, assistantChatsUpdate]
          rw [show runEvents c mid st (e :: es) =
              runEvents c mid (assistantStateUpdate st c mid t) es from by
            simp only [runEvents, hstep]]
          rw [List.foldl_cons,
            show stepParts m0.parts e = applyAssistantParts m0.parts t from by
              simp [stepParts, htt]]
          have hupd : (assistantStateUpdate st c mid
                t).karton.chats.lookup c =
              some { ch with messages :=
                  applyAssistantText ch.messages mid t } :=
            lookup_mapUpdate st.karton.chats c
              (fun x => { x with messages :=
                applyAssistantText x.messages mid t }) ch hch
          have hmsgs2 :
              ({ ch with messages := applyAssistantText ch.messages mid t
                } : Chat).messages =
                pre ++ [{ m0 with
                    parts := applyAssistantParts m0.parts t }] := by
            show applyAssistantText ch.messages mid t = _
            rw [hmsgs]
            exact applyAssistantText_placeholder pre m0 mid t hpre hid
          exact ih (assistantStateUpdate st c mid t) c mid pre
            { m0 with parts := applyAssistantParts m0.parts t }
            { ch with messages := applyAssistantText ch.messages mid t }
            hk hupd hmsgs2 hid hpre
    · have hstep : handleStreamEventS st e c mid = some st := by
        simp [handleStreamEventS, hk, he]
      have htt : truthyText e = none := by simp [truthyText, he]
      rw [runEvents_noop_step st c mid e es hstep, List.foldl_cons,
        stepParts_noop m0.parts e htt]
      exact ih st c mid pre m0 ch hk hch hmsgs hid hpre

/-- **C1**.  Applying a sequence of decoded `assistant`-kind events to the
placeholder assistant message extracts and concatenates each event's
`text`-typed fragments and, when non-empty, installs the concatenation as
the message's single text part (replacing, not appending): afterwards the
message holds exactly one text part whose content is the *last* truthy
event's concatenated text, not a concatenation across events. -/
theorem assistant_stream_replaces_text (st : AgentState) (c mid : String)
    (events : List StreamEvent) (pre : List ChatMessage) (ch : Chat)
    (ph : ChatMessage) (t : String)
    (hk : st.kartonInit = true)
    (hch : st.karton.chats.lookup c = some ch)
    (hmsgs : ch.messages = pre ++ [ph])
    (hid : ph.id = mid) (hparts : ph.parts = [])
    (hpre : ∀ m ∈ pre, m.id ≠ mid)
    (hall : ∀ e ∈ events, e.type = "assistant")
    (hlast : lastTruthy events = some t) :
    ∃ ch', (runEvents c mid st events).karton.chats.lookup c = some ch' ∧
      ch'.messages = pre ++ [{ ph with parts := [textPartV t] }] := by
  obtain ⟨ch', h1, h2⟩ :=
    runEvents_track events st c mid pre ph ch hk hch hmsgs hid hpre
  refine ⟨ch', h1, ?_⟩
  rw [h2, hparts]
  have hfold : events.foldl stepParts ([] : List MessagePart) =
      partsOf (some t) := by
    have h3 := foldl_stepParts events none
    rw [show partsOf none = ([] : List MessagePart) from rfl] at h3
    rw [h3, show lastTruthyAux none events = some t from hlast]
  rw [hfold]
  rfl

/-- **C1** witness: two growing `assistant` events (`Hel`, then `Hello`)
leave the placeholder with exactly one text part `Hello`. -/
theorem assistant_stream_replaces_text_witness :
    ∃ ch', (runEvents "c" "m"
        ⟨true, ⟨some "c", [("c", ⟨"t", 0, [placeholderMessage "m" 0]⟩)],
          true⟩, true⟩
        [⟨"assistant", none, some ⟨"x", [⟨"text", some "Hel"⟩]⟩, none, none,
          none, none⟩,
         ⟨"assistant", none, some ⟨"x", [⟨"text", some "Hello"⟩]⟩, none,
          none, none, none⟩]).karton.chats.lookup "c" = some ch' ∧
      ch'.messages =
        [] ++ [{ placeholderMessage "m" 0 with
                  parts := [textPartV "Hello"] }] :=
  assistant_stream_replaces_text
    ⟨true, ⟨some "c", [("c", ⟨"t", 0, [placeholderMessage "m" 0]⟩)], true⟩,
      true⟩
    "c" "m"
    [⟨"assistant", none, some ⟨"x", [⟨"text", some "Hel"⟩]⟩, none, none,
      none, none⟩,
     ⟨"assistant", none, some ⟨"x", [⟨"text", some "Hello"⟩]⟩, none, none,
      none, none⟩]
    [] ⟨"t", 0, [placeholderMessage "m" 0]⟩ (placeholderMessage "m" 0)
    "Hello" rfl (by decide) rfl rfl rfl (by simp) (by decide) (by decide)
